import Mathlib

set_option maxHeartbeats 1000000

/-!
Verification development for `boilr/trainer.py`: a shallow embedding of the
`Trainer` class (construction and the training loop `run()` together with the
evaluation pass `_test`), plus the parts of the `History` and
`SummarizerCollection` utilities (from `boilr.summarize`, whose source file is
not part of this tree) that the trainer manipulates, modelled from the spec.

Effects (directory creation, file writes, collaborator hook invocations) are
recorded as explicit events; the contents successively written to the run's
single log file `log.pkl` are kept as a list of snapshots.  Python errors
(assertion failures, `ZeroDivisionError` from `%` with a zero divisor,
`AttributeError` from using a `None` attribute) are explicit error values.
-/

namespace Boilr

/-- Training / evaluation mode of the model collaborator
(`model.train()` / `model.eval()`). -/
inductive Mode where
  | train
  | eval
  deriving Repr, DecidableEq

/-- The argument object `experiment.args` as consumed by `trainer.py`:
exactly the fields the driver reads (`checkpoint_interval`,
`test_log_interval`, `log_interval`, `seed`, `no_cuda`, `dry_run`). -/
structure Args where
  checkpoint_interval : Nat
  test_log_interval : Nat
  log_interval : Nat
  seed : Nat
  no_cuda : Bool
  dry_run : Bool
  deriving Repr, DecidableEq

/-- The experiment collaborator as `Trainer.__init__` sees it.  The `Option`
fields record whether the corresponding attribute is non-`None` after its
`make_and_set_*` hook has run (`none` models a hook that leaves the attribute
unset).  `args` and `run_description` are plain values: a `None` there would
already crash at line 28 (`args.checkpoint_interval`) resp. line 50 (string
concatenation into `folder_str`), before anything modelled here. -/
structure Experiment where
  args : Args
  run_description : String
  max_epochs : Nat
  dataloaders : Option Unit
  model : Option Unit
  optimizer : Option Unit
  deriving Repr, DecidableEq

/-- Observable effects of `Trainer.__init__` (lines 26-87): the four
`os.makedirs` calls, the `config.pkl` dump, the three collaborator setup
hooks, and the final `_check_experiment` call. -/
inductive CEv where
  | mkdirResultE
  | mkdirImgsE
  | mkdirCkptE
  | mkdirTbE
  | writeConfigE
  | setupDataE
  | setupModelE
  | setupOptE
  | checkExpE
  deriving Repr, DecidableEq

/-- Ways `Trainer.__init__` can raise. -/
inductive InitErr where
  | zeroDivE
  | assertIntervalE
  | attrAccessE
  | assertCheckE
  deriving Repr, DecidableEq

/-- `Trainer._check_experiment` (lines 201-212): collects
`[e.device, e.dataloaders, e.model, e.args, e.run_description]`, appends
`e.optimizer` when `opt` holds, and asserts that `None` is not among them.
By the time the check runs, `device` has been set by the trainer itself
(line 41) and `args` / `run_description` have already been dereferenced, so
those three entries are `some ()` here. -/
def check_experiment (e : Experiment) (opt : Bool) : Bool :=
  let attributes : List (Option Unit) :=
    [some (), e.dataloaders, e.model, some (), some ()]
  let attributes := if opt then attributes ++ [e.optimizer] else attributes
  !(attributes.contains none)

/-- `Trainer.__init__` (lines 26-87) as the list of effect events it performs,
in program order, together with the error it raises (if any).  Order in the
source: the divisibility assert (line 29), then (unless `dry_run`) the
directory creation and the `config.pkl` dump (lines 57-66), then
`make_and_set_datamanager` (line 70, followed by prints at lines 71-75 that
dereference `dataloaders`), then `make_and_set_model` (line 79, followed by
`print_num_params(experiment.model, ...)` at line 80), then optionally
`make_and_set_optimizer` (lines 83-84), and `_check_experiment` last
(line 87). -/
def initTrainer (e : Experiment) (create_optimizer : Bool) (have_tensorboard : Bool) :
    List CEv × Option InitErr :=
  let a := e.args
  if a.test_log_interval = 0 then ([], some InitErr.zeroDivE)
  else if a.checkpoint_interval % a.test_log_interval ≠ 0 then
    ([], some InitErr.assertIntervalE)
  else
    let evs : List CEv :=
      if !a.dry_run then
        [CEv.mkdirResultE, CEv.mkdirImgsE, CEv.mkdirCkptE]
          ++ (if have_tensorboard then [CEv.mkdirTbE] else [])
          ++ [CEv.writeConfigE]
      else []
    let evs := evs ++ [CEv.setupDataE]
    if e.dataloaders.isNone then (evs, some InitErr.attrAccessE)
    else
      let evs := evs ++ [CEv.setupModelE]
      if e.model.isNone then (evs, some InitErr.attrAccessE)
      else
        let evs := evs ++ (if create_optimizer then [CEv.setupOptE] else [])
        let evs := evs ++ [CEv.checkExpE]
        if check_experiment e create_optimizer then (evs, none)
        else (evs, some InitErr.assertCheckE)

/-! ## History and summarizer (from `boilr.summarize`, modelled from the spec) -/

/-- A metrics dictionary: metric name to scalar value.  Scalars are modelled
as integers; no claim inspects the numeric values themselves. -/
abbrev Metrics := List (String × Int)

/-- Modelled from the spec: `History` (class in `boilr/summarize.py`, whose
source is not in this tree) is an "ordered sequence of (step, metric-name →
value) records; append-only". -/
abbrev History := List (Nat × Metrics)

/-- The serialized form of a history, as written to `log.pkl`: "a serialized
mapping of metric name → ordered (step, value) pairs". -/
abbrev HistDict := List (String × List (Nat × Int))

/-- Modelled from the spec: `History.add(summaries, step)` appends one
(step, summaries) record (the history is append-only). -/
def histAdd (h : History) (summaries : Metrics) (step : Nat) : History :=
  h ++ [(step, summaries)]

/-- The metric names occurring in a history, in order of first appearance. -/
def namesOf (h : History) : List String :=
  (h.flatMap (fun r => r.2.map Prod.fst)).dedup

/-- The ordered (step, value) pairs a history holds for one metric name. -/
def entriesFor (h : History) (n : String) : List (Nat × Int) :=
  h.filterMap (fun r => (r.2.find? (fun p => p.1 == n)).map (fun p => (r.1, p.2)))

/-- Modelled from the spec: `History.get_dict()` gives the mapping
metric name → ordered (step, value) pairs, the form serialized to `log.pkl`. -/
def get_dict (h : History) : HistDict :=
  (namesOf h).map (fun n => (n, entriesFor h n))

/-- The set of steps a serialized history snapshot holds for a metric name. -/
def stepsOfDict (d : HistDict) (n : String) : List Nat :=
  (d.filter (fun p => p.1 == n)).flatMap (fun p => p.2.map Prod.fst)

/-- Modelled from the spec: the summarizer state of a `SummarizerCollection`
(`boilr/summarize.py`, not in this tree): a "mapping from metric name to a
moving-average accumulator; reset after each flush".  Each accumulator keeps
the values added to it, newest last. -/
abbrev Summ := List (String × List Int)

/-- Add one value to one named accumulator (creating it on first use). -/
def summAdd1 (s : Summ) (n : String) (v : Int) : Summ :=
  match s with
  | [] => [(n, [v])]
  | (m, l) :: rest =>
      if m == n then (m, l ++ [v]) :: rest else (m, l) :: summAdd1 rest n v

/-- `SummarizerCollection.add(metrics_dict)`: add every metric of a batch to
its accumulator. -/
def summAdd (s : Summ) (ms : Metrics) : Summ :=
  ms.foldl (fun s p => summAdd1 s p.1 p.2) s

/-- Modelled from the spec: the "smoothed metric value over a trailing
window" of length `maLen` produced by a moving-average accumulator.  The
spec gives no formula; integer mean of the trailing window is used, and no
claim inspects these values. -/
def movingAvg (maLen : Nat) (l : List Int) : Int :=
  let w := l.drop (l.length - maLen)
  if w.length = 0 then 0 else w.sum / (w.length : Int)

/-- `SummarizerCollection.get_all(reset=True)`: the smoothed value of every
accumulator, and the state after the reset. -/
def summGetAll (maLen : Nat) (s : Summ) : Metrics × Summ :=
  (s.map (fun p => (p.1, movingAvg maLen p.2)), [])

/-! ## The training loop `run()` and the evaluation pass `_test` -/

/-- Observable events of `Trainer.run` / `Trainer._test`, in program order.
Collaborator-hook events carry the `global_step` at which they fire; hook
calls made inside `_test` also carry the model's mode at the moment of the
call.  The per-metric `add_scalar` loops on the tensorboard writer are
recorded as one `tbFlushE` event per flush (no claim inspects individual
scalar writes).  `persistLogE`/`tbFlushE` carry `true` for the train-flush
site (lines 154-159) and `false` for the `_test` site (lines 186-195). -/
inductive Ev where
  | testProcE (m : Mode) (step : Nat)
  | addTestingE (m : Mode) (step : Nat)
  | printTestE (m : Mode) (step : Nat)
  | checkpointE (step : Nat)
  | zeroGradE (step : Nat)
  | forwardE (step : Nat)
  | backwardE (step : Nat)
  | accumE (step : Nat)
  | printTrainE (step : Nat)
  | persistLogE (isTrain : Bool) (step : Nat)
  | tbFlushE (isTrain : Bool) (step : Nat)
  | optStepE (step : Nat)
  | incStepE (step : Nat)
  deriving Repr, DecidableEq

/-- Ways an iteration of `Trainer.run` can raise: `ZeroDivisionError` from a
`%` with a zero interval, `AttributeError` from `progress.update()` while
`progress` is still `None` (line 97 / line 135), and exceptions propagating
out of the collaborator's `test_procedure` / `additional_testing` hooks. -/
inductive RunErr where
  | zeroDivR
  | progressNoneR
  | testFailR
  | addTestFailR
  deriving Repr, DecidableEq

/-- The mutable state `Trainer.run` threads through the loop: the model's
`global_step` and mode, the `progress` variable (line 97), the summarizer
collection (line 95), both histories, the successive snapshots written to the
single log file `self.log_path` (each tagged with the site that wrote it:
`true` = train flush, `false` = `_test`), and the trace of events so far. -/
structure RSt where
  step : Nat
  mode : Mode
  progress : Option Unit
  summ : Summ
  trainH : History
  testH : History
  file : List (Bool × HistDict)
  trace : List Ev
  deriving Repr, DecidableEq

/-- Outcomes of the collaborator hooks invoked by `_test`:
`test_procedure` returns a summaries dictionary (or raises), and
`additional_testing` returns nothing (or raises), both as functions of the
model's current `global_step`. -/
structure Hooks where
  testProc : Nat → Except Unit Metrics
  addTest : Nat → Except Unit Unit

/-- Hooks that never raise and whose `test_procedure` returns `ts step`. -/
def mkHooks (ts : Nat → Metrics) : Hooks :=
  { testProc := fun s => Except.ok (ts s), addTest := fun _ => Except.ok () }

/-- `Trainer._test` (lines 167-198): switch the model to eval mode, run
`test_procedure`, run `additional_testing`, print the test log, append the
summaries to the test history, and (unless `dry_run`) write the scalars to
tensorboard and dump `test_history.get_dict()` to the log file; finally
switch the model back to train mode.  There is no `try`/`finally`: when a
hook raises, the function stops there (the error is returned) and the mode
is whatever it was at that point. -/
def testPass (dry tb : Bool) (hk : Hooks) (st : RSt) : RSt × Option RunErr :=
  let s := st.step
  let st := { st with mode := Mode.eval }
  let st := { st with trace := st.trace ++ [Ev.testProcE Mode.eval s] }
  match hk.testProc s with
  | Except.error _ => (st, some RunErr.testFailR)
  | Except.ok summaries =>
    let st := { st with trace := st.trace ++ [Ev.addTestingE Mode.eval s] }
    match hk.addTest s with
    | Except.error _ => (st, some RunErr.addTestFailR)
    | Except.ok _ =>
      let st := { st with trace := st.trace ++ [Ev.printTestE Mode.eval s] }
      let st := { st with testH := histAdd st.testH summaries s }
      let st :=
        if !dry then
          { st with
              trace := st.trace ++ (if tb then [Ev.tbFlushE false s] else [])
                        ++ [Ev.persistLogE false s],
              file := st.file ++ [(false, get_dict st.testH)] }
        else st
      ({ st with mode := Mode.train }, none)

/-- Lines 106-119 of `Trainer.run`: when `step % test_log_interval == 0`, run
`_test`, then (when `step > 0 and step % checkpoint_interval == 0`,
short-circuit as in Python) call `model.checkpoint`, then create a fresh
progress bar. -/
def phaseTest (a : Args) (tb : Bool) (hk : Hooks) (st : RSt) : Except RunErr RSt :=
  if st.step % a.test_log_interval = 0 then
    match testPass a.dry_run tb hk st with
    | (_, some e) => Except.error e
    | (st1, none) =>
      if st.step > 0 then
        if a.checkpoint_interval = 0 then Except.error RunErr.zeroDivR
        else if st.step % a.checkpoint_interval = 0 then
          Except.ok { st1 with trace := st1.trace ++ [Ev.checkpointE st.step],
                               progress := some () }
        else Except.ok { st1 with progress := some () }
      else Except.ok { st1 with progress := some () }
  else Except.ok st

/-- Lines 142-159 of `Trainer.run`: when `(step + 1) % log_interval == 0`,
flush the summarizers (with reset), print the train log, append the smoothed
summaries to the train history at key `step`, and (unless `dry_run`) dump
`train_history.get_dict()` to the log file and write the scalars to
tensorboard. -/
def phaseFlush (a : Args) (tb : Bool) (s : Nat) (st : RSt) : RSt :=
  if (s + 1) % a.log_interval = 0 then
    let pair := summGetAll 1000 st.summ
    let st := { st with summ := pair.2,
                        trace := st.trace ++ [Ev.printTrainE s],
                        trainH := histAdd st.trainH pair.1 s }
    if !a.dry_run then
      { st with
          file := st.file ++ [(true, get_dict st.trainH)],
          trace := st.trace ++ [Ev.persistLogE true s]
                    ++ (if tb then [Ev.tbFlushE true s] else []) }
    else st
  else st

/-- One iteration of the inner loop of `Trainer.run` (lines 104-165), for one
training batch whose metrics dictionary is `m`: read `step` (line 106; a zero
`test_log_interval` makes the `%` at line 107 raise), run the test/checkpoint
phase, then zero gradients, forward pass, backward pass, accumulate the batch
metrics (lines 122-132), call `progress.update()` (line 135; raises when
`progress` is still `None`), run the train-log flush phase (lines 138-159;
a zero `log_interval` makes the `%` at line 142 raise), then the optimizer
step and the `global_step` increment (lines 162-165). -/
def processBatch (a : Args) (tb : Bool) (hk : Hooks) (m : Metrics) (st : RSt) :
    Except RunErr RSt :=
  let s := st.step
  if a.test_log_interval = 0 then Except.error RunErr.zeroDivR
  else
    match phaseTest a tb hk st with
    | Except.error e => Except.error e
    | Except.ok st1 =>
      let st2 := { st1 with
        trace := st1.trace ++ [Ev.zeroGradE s, Ev.forwardE s, Ev.backwardE s, Ev.accumE s],
        summ := summAdd st1.summ m }
      match st2.progress with
      | none => Except.error RunErr.progressNoneR
      | some _ =>
        if a.log_interval = 0 then Except.error RunErr.zeroDivR
        else
          let st3 := phaseFlush a tb s st2
          Except.ok { st3 with
            trace := st3.trace ++ [Ev.optStepE s, Ev.incStepE s],
            step := s + 1 }

/-- The inner loop of `Trainer.run` over a list of training batches (each
given by its metrics dictionary), stopping at the first raised error. -/
def runBatches (a : Args) (tb : Bool) (hk : Hooks) (ms : List Metrics) (st : RSt) :
    Except RunErr RSt :=
  match ms with
  | [] => Except.ok st
  | m :: rest =>
    match processBatch a tb hk m st with
    | Except.error e => Except.error e
    | Except.ok st' => runBatches a tb hk rest st'

/-- The state at the top of `Trainer.run` (lines 92-100) for a trainer whose
model starts at `global_step = s0`: fresh histories (created in `__init__`),
a fresh summarizer collection, `progress = None`, the model put in train
mode, no log file written yet. -/
def initRSt (s0 : Nat) : RSt :=
  { step := s0, mode := Mode.train, progress := none, summ := [],
    trainH := [], testH := [], file := [], trace := [] }

/-- `Trainer.run` (lines 90-165): iterate epochs `1 .. max_epochs` and within
each epoch the training batches `0 .. nBatches - 1`, whose metrics are given
by `metricsOf epoch idx`, starting from `global_step = s0`. -/
def runLoop (a : Args) (tb : Bool) (hk : Hooks) (metricsOf : Nat → Nat → Metrics)
    (max_epochs nBatches s0 : Nat) : Except RunErr RSt :=
  runBatches a tb hk
    ((List.range max_epochs).flatMap
      (fun ep => (List.range nBatches).map (fun i => metricsOf (ep + 1) i)))
    (initRSt s0)

/-! ## Closed forms for one successful loop iteration -/

/-- The events one call of `_test` emits (program order), when no hook
raises. -/
def testTrace (dry tb : Bool) (s : Nat) : List Ev :=
  [Ev.testProcE Mode.eval s, Ev.addTestingE Mode.eval s, Ev.printTestE Mode.eval s]
    ++ (if !dry then (if tb then [Ev.tbFlushE false s] else []) ++ [Ev.persistLogE false s]
        else [])

/-- The events one train-log flush emits (program order). -/
def flushTrace (dry tb : Bool) (s : Nat) : List Ev :=
  [Ev.printTrainE s]
    ++ (if !dry then [Ev.persistLogE true s] ++ (if tb then [Ev.tbFlushE true s] else [])
        else [])

/-- The events one successful iteration of the inner training loop emits at
`global_step = s`, in program order. -/
def batchTrace (a : Args) (tb : Bool) (s : Nat) : List Ev :=
  (if s % a.test_log_interval = 0 then
      testTrace a.dry_run tb s
        ++ (if s > 0 ∧ s % a.checkpoint_interval = 0 then [Ev.checkpointE s] else [])
    else [])
  ++ [Ev.zeroGradE s, Ev.forwardE s, Ev.backwardE s, Ev.accumE s]
  ++ (if (s + 1) % a.log_interval = 0 then flushTrace a.dry_run tb s else [])
  ++ [Ev.optStepE s, Ev.incStepE s]

/-- The state after one successful iteration of the inner training loop,
as a function of the state before it. -/
def batchStep (a : Args) (tb : Bool) (ts : Nat → Metrics) (m : Metrics) (st : RSt) : RSt :=
  let s := st.step
  let testH' := if s % a.test_log_interval = 0 then histAdd st.testH (ts s) s else st.testH
  let summ1 := summAdd st.summ m
  let trainH' := if (s + 1) % a.log_interval = 0
    then histAdd st.trainH (summGetAll 1000 summ1).1 s else st.trainH
  { step := s + 1,
    mode := if s % a.test_log_interval = 0 then Mode.train else st.mode,
    progress := if s % a.test_log_interval = 0 then some () else st.progress,
    summ := if (s + 1) % a.log_interval = 0 then [] else summ1,
    trainH := trainH',
    testH := testH',
    file := st.file
      ++ (if s % a.test_log_interval = 0 ∧ a.dry_run = false
            then [(false, get_dict testH')] else [])
      ++ (if (s + 1) % a.log_interval = 0 ∧ a.dry_run = false
            then [(true, get_dict trainH')] else []),
    trace := st.trace ++ batchTrace a tb s }

theorem testPass_ok (dry tb : Bool) (ts : Nat → Metrics) (st : RSt) :
    testPass dry tb (mkHooks ts) st =
      ({ st with
          mode := Mode.train,
          trace := st.trace ++ testTrace dry tb st.step,
          testH := histAdd st.testH (ts st.step) st.step,
          file := st.file ++ (if dry then [] else
                    [(false, get_dict (histAdd st.testH (ts st.step) st.step))]) },
        none) := by
  cases dry <;> cases tb <;>
    simp [testPass, mkHooks, testTrace, List.append_assoc]

theorem phaseTest_ok (a : Args) (tb : Bool) (ts : Nat → Metrics) (st : RSt)
    (hc : a.checkpoint_interval ≠ 0) (htest : st.step % a.test_log_interval = 0) :
    phaseTest a tb (mkHooks ts) st =
      Except.ok { st with
        mode := Mode.train,
        progress := some (),
        trace := st.trace ++ testTrace a.dry_run tb st.step
                  ++ (if st.step > 0 ∧ st.step % a.checkpoint_interval = 0
                      then [Ev.checkpointE st.step] else []),
        testH := histAdd st.testH (ts st.step) st.step,
        file := st.file ++ (if a.dry_run then [] else
                  [(false, get_dict (histAdd st.testH (ts st.step) st.step))]) } := by
  rw [phaseTest, if_pos htest, testPass_ok]
  by_cases hs : st.step > 0
  · by_cases hcd : st.step % a.checkpoint_interval = 0
    · simp [hs, hcd, hc, List.append_assoc]
    · simp [hs, hcd, hc, List.append_assoc]
  · simp [hs, Nat.eq_zero_of_not_pos, List.append_assoc]

theorem phaseFlush_ok (a : Args) (tb : Bool) (s : Nat) (st : RSt) :
    phaseFlush a tb s st =
      if (s + 1) % a.log_interval = 0 then
        { st with
            summ := [],
            trace := st.trace ++ flushTrace a.dry_run tb s,
            trainH := histAdd st.trainH (summGetAll 1000 st.summ).1 s,
            file := st.file ++ (if a.dry_run then [] else
              [(true, get_dict (histAdd st.trainH (summGetAll 1000 st.summ).1 s))]) }
      else st := by
  by_cases hf : (s + 1) % a.log_interval = 0 <;>
    cases hd : a.dry_run <;> cases tb <;>
      simp [phaseFlush, flushTrace, hf, hd, summGetAll, List.append_assoc]

/-- One iteration of the inner training loop succeeds, and produces exactly
`batchStep`, whenever the three intervals are nonzero and the progress bar
exists or is about to be (re)created. -/
theorem processBatch_ok (a : Args) (tb : Bool) (ts : Nat → Metrics) (m : Metrics) (st : RSt)
    (ht : a.test_log_interval ≠ 0) (hL : a.log_interval ≠ 0) (hc : a.checkpoint_interval ≠ 0)
    (hp : st.progress = some () ∨ st.step % a.test_log_interval = 0) :
    processBatch a tb (mkHooks ts) m st = Except.ok (batchStep a tb ts m st) := by
  by_cases htest : st.step % a.test_log_interval = 0
  · rw [processBatch]
    rw [if_neg ht, phaseTest_ok a tb ts st hc htest]
    simp only []
    rw [phaseFlush_ok]
    by_cases hf : (st.step + 1) % a.log_interval = 0 <;>
      cases hd : a.dry_run <;>
        simp [htest, hf, hd, hL, batchStep, batchTrace, List.append_assoc]
  · have hp' : st.progress = some () := by
      rcases hp with h | h
      · exact h
      · exact absurd h htest
    rw [processBatch]
    rw [if_neg ht, phaseTest]
    rw [if_neg htest]
    simp only [hp']
    rw [phaseFlush_ok]
    by_cases hf : (st.step + 1) % a.log_interval = 0 <;>
      cases hd : a.dry_run <;>
        simp [htest, hf, hd, hL, hp', batchStep, batchTrace, List.append_assoc]

/-- Iterating `batchStep` over a list of batches. -/
def runSteps (a : Args) (tb : Bool) (ts : Nat → Metrics) (ms : List Metrics) (st : RSt) : RSt :=
  match ms with
  | [] => st
  | m :: rest => runSteps a tb ts rest (batchStep a tb ts m st)

/-- The events a successful run over `N` batches emits, starting at
`global_step = s0`. -/
def runTrace (a : Args) (tb : Bool) (s0 N : Nat) : List Ev :=
  match N with
  | 0 => []
  | Nat.succ k => batchTrace a tb s0 ++ runTrace a tb (s0 + 1) k

theorem batchStep_progress (a : Args) (tb : Bool) (ts : Nat → Metrics) (m : Metrics)
    (st : RSt) (hp : st.progress = some () ∨ st.step % a.test_log_interval = 0) :
    (batchStep a tb ts m st).progress = some () := by
  rcases hp with h | h
  · by_cases htest : st.step % a.test_log_interval = 0 <;> simp [batchStep, htest, h]
  · simp [batchStep, h]

theorem batchStep_step (a : Args) (tb : Bool) (ts : Nat → Metrics) (m : Metrics)
    (st : RSt) : (batchStep a tb ts m st).step = st.step + 1 := rfl

theorem batchStep_trace (a : Args) (tb : Bool) (ts : Nat → Metrics) (m : Metrics)
    (st : RSt) : (batchStep a tb ts m st).trace = st.trace ++ batchTrace a tb st.step := rfl

/-- The whole inner loop succeeds, producing `runSteps`, whenever the three
intervals are nonzero and the progress bar exists or the first step is a
test step. -/
theorem runBatches_ok (a : Args) (tb : Bool) (ts : Nat → Metrics) (ms : List Metrics)
    (st : RSt)
    (ht : a.test_log_interval ≠ 0) (hL : a.log_interval ≠ 0) (hc : a.checkpoint_interval ≠ 0)
    (hp : st.progress = some () ∨ st.step % a.test_log_interval = 0) :
    runBatches a tb (mkHooks ts) ms st = Except.ok (runSteps a tb ts ms st) := by
  induction ms generalizing st with
  | nil => rfl
  | cons m rest ih =>
    rw [runBatches, processBatch_ok a tb ts m st ht hL hc hp]
    exact ih (batchStep a tb ts m st) (Or.inl (batchStep_progress a tb ts m st hp))

theorem runSteps_step (a : Args) (tb : Bool) (ts : Nat → Metrics) (ms : List Metrics)
    (st : RSt) : (runSteps a tb ts ms st).step = st.step + ms.length := by
  induction ms generalizing st with
  | nil => rfl
  | cons m rest ih =>
    rw [runSteps, ih, batchStep_step]
    simp [List.length_cons]
    omega

theorem runSteps_trace (a : Args) (tb : Bool) (ts : Nat → Metrics) (ms : List Metrics)
    (st : RSt) :
    (runSteps a tb ts ms st).trace = st.trace ++ runTrace a tb st.step ms.length := by
  induction ms generalizing st with
  | nil => simp [runSteps, runTrace]
  | cons m rest ih =>
    rw [runSteps, ih, batchStep_trace, batchStep_step, List.length_cons, runTrace,
      List.append_assoc]

theorem checkpointE_mem_batchTrace (a : Args) (tb : Bool) (s s' : Nat) :
    Ev.checkpointE s' ∈ batchTrace a tb s ↔
      s' = s ∧ s % a.test_log_interval = 0 ∧ s > 0 ∧ s % a.checkpoint_interval = 0 := by
  by_cases htest : s % a.test_log_interval = 0 <;>
    by_cases hck : s > 0 ∧ s % a.checkpoint_interval = 0 <;>
      by_cases hf : (s + 1) % a.log_interval = 0 <;>
        cases hd : a.dry_run <;> cases tb <;>
          simp [batchTrace, testTrace, flushTrace, htest, hck, hf, hd]

theorem checkpointE_mem_runTrace (a : Args) (tb : Bool) (s0 N s' : Nat) :
    Ev.checkpointE s' ∈ runTrace a tb s0 N ↔
      s0 ≤ s' ∧ s' < s0 + N ∧ s' % a.test_log_interval = 0 ∧ s' > 0 ∧
        s' % a.checkpoint_interval = 0 := by
  induction N generalizing s0 with
  | zero =>
    rw [runTrace]
    simp only [List.not_mem_nil, false_iff]
    rintro ⟨h1, h2, -⟩
    omega
  | succ k ih =>
    rw [runTrace]
    simp only [List.mem_append, checkpointE_mem_batchTrace, ih]
    constructor
    · rintro (⟨rfl, h1, h2, h3⟩ | ⟨h0, h1, h2, h3, h4⟩)
      · exact ⟨le_refl _, by omega, h1, h2, h3⟩
      · exact ⟨by omega, by omega, h2, h3, h4⟩
    · rintro ⟨h0, h1, h2, h3, h4⟩
      by_cases he : s' = s0
      · subst he
        exact Or.inl ⟨rfl, h2, h3, h4⟩
      · exact Or.inr ⟨by omega, by omega, h2, h3, h4⟩

/-- The six per-batch optimize-step hooks of the claim: zero gradients,
forward pass, backward pass, metric accumulation, optimizer step, global-step
increment. -/
def isCoreHook : Ev → Bool
  | Ev.zeroGradE _ => true
  | Ev.forwardE _ => true
  | Ev.backwardE _ => true
  | Ev.accumE _ => true
  | Ev.optStepE _ => true
  | Ev.incStepE _ => true
  | _ => false

theorem batchTrace_coreHooks (a : Args) (tb : Bool) (s : Nat) :
    (batchTrace a tb s).filter isCoreHook =
      [Ev.zeroGradE s, Ev.forwardE s, Ev.backwardE s, Ev.accumE s,
       Ev.optStepE s, Ev.incStepE s] := by
  by_cases htest : s % a.test_log_interval = 0 <;>
    by_cases hck : s > 0 ∧ s % a.checkpoint_interval = 0 <;>
      by_cases hf : (s + 1) % a.log_interval = 0 <;>
        cases hd : a.dry_run <;> cases tb <;>
          simp [batchTrace, testTrace, flushTrace, isCoreHook, htest, hck, hf, hd]

theorem processBatch_progressNone (a : Args) (tb : Bool) (hk : Hooks) (m : Metrics)
    (st : RSt) (ht : a.test_log_interval ≠ 0)
    (htest : ¬ st.step % a.test_log_interval = 0) (hprog : st.progress = none) :
    processBatch a tb hk m st = Except.error RunErr.progressNoneR := by
  rw [processBatch, if_neg ht, phaseTest, if_neg htest]
  simp [hprog]

/-! ## Concrete fixtures -/

/-- Concrete fixture: the metrics dictionary of a training batch. -/
def mFix : Metrics := [("loss", 3)]

/-- Concrete fixture: summaries returned by `test_procedure`. -/
def tsFix : Nat → Metrics := fun _ => [("test_loss", 7)]

/-- Concrete fixture: arguments with `checkpoint_interval = 2`,
`test_log_interval = 2`, `log_interval = 1`, not a dry run. -/
def aFix : Args := { checkpoint_interval := 2, test_log_interval := 2, log_interval := 1,
                     seed := 0, no_cuda := true, dry_run := false }

/-- An experiment whose collaborator attributes are all set and whose
intervals satisfy the construction-time assert. -/
def expOK : Experiment :=
  { args := { checkpoint_interval := 1, test_log_interval := 1, log_interval := 1,
              seed := 0, no_cuda := true, dry_run := false },
    run_description := "run", max_epochs := 1,
    dataloaders := some (), model := some (), optimizer := some () }

/-- An experiment whose intervals violate the divisibility assert
(`checkpoint_interval = 3`, `test_log_interval = 2`). -/
def expBadInterval : Experiment :=
  { args := { checkpoint_interval := 3, test_log_interval := 2, log_interval := 1,
              seed := 0, no_cuda := true, dry_run := false },
    run_description := "run", max_epochs := 1,
    dataloaders := some (), model := some (), optimizer := some () }

/-- An experiment whose `make_and_set_optimizer` hook leaves `optimizer` as
`None` (everything else is set). -/
def expNoOpt : Experiment :=
  { args := { checkpoint_interval := 1, test_log_interval := 1, log_interval := 1,
              seed := 0, no_cuda := true, dry_run := false },
    run_description := "run", max_epochs := 1,
    dataloaders := some (), model := some (), optimizer := none }

/-- Whether an event is a collaborator-hook call of `_test` tagged with eval
mode; events that carry no mode tag are vacuously fine. -/
def evEvalTagged : Ev → Bool
  | Ev.testProcE m _ => m == Mode.eval
  | Ev.addTestingE m _ => m == Mode.eval
  | Ev.printTestE m _ => m == Mode.eval
  | _ => true

/-- Hooks whose `test_procedure` raises. -/
def failingHooks : Hooks :=
  { testProc := fun _ => Except.error (), addTest := fun _ => Except.ok () }

/-- Construction events that create a directory or write a file. -/
def cevWrites : CEv → Bool
  | CEv.mkdirResultE => true
  | CEv.mkdirImgsE => true
  | CEv.mkdirCkptE => true
  | CEv.mkdirTbE => true
  | CEv.writeConfigE => true
  | _ => false

/-- Run events by which the driver itself writes a file: the `log.pkl` dumps
and the tensorboard scalar writes.  (The checkpoint files are written by the
model collaborator inside its `checkpoint` hook, not by the driver.) -/
def evDriverWrite : Ev → Bool
  | Ev.persistLogE _ _ => true
  | Ev.tbFlushE _ _ => true
  | _ => false

/-- Concrete fixture for claim C2: `log_interval = 2`, the other intervals 4,
dry run, two training batches. -/
def aFixC2 : Args := { checkpoint_interval := 4, test_log_interval := 4, log_interval := 2,
                       seed := 0, no_cuda := true, dry_run := true }

/-- The run of claim C2: two batches from `global_step = 0`. -/
def c2result : Except RunErr RSt :=
  runBatches aFixC2 false (mkHooks tsFix) [mFix, mFix] (initRSt 0)

/-- The step keys of the train-history records after the run of claim C2. -/
def c2trainSteps : List Nat :=
  match c2result with
  | Except.ok st => st.trainH.map Prod.fst
  | Except.error _ => []

/-- Concrete fixture for claim C3: a dry run with all intervals 1. -/
def aFixDry : Args := { checkpoint_interval := 1, test_log_interval := 1, log_interval := 1,
                        seed := 0, no_cuda := true, dry_run := true }

/-- The event trace of a two-batch dry run with all intervals 1. -/
def c3trace : List Ev :=
  match runBatches aFixDry false (mkHooks tsFix) [mFix, mFix] (initRSt 0) with
  | Except.ok st => st.trace
  | Except.error _ => []

/-- A fully set-up experiment whose args are the dry-run fixture. -/
def expDry : Experiment :=
  { args := aFixDry, run_description := "run", max_epochs := 1,
    dataloaders := some (), model := some (), optimizer := some () }

theorem batchStep_file_dry (a : Args) (tb : Bool) (ts : Nat → Metrics) (m : Metrics)
    (st : RSt) (hdry : a.dry_run = true) :
    (batchStep a tb ts m st).file = st.file := by
  simp [batchStep, hdry]

theorem runSteps_file_dry (a : Args) (tb : Bool) (ts : Nat → Metrics) (ms : List Metrics)
    (st : RSt) (hdry : a.dry_run = true) :
    (runSteps a tb ts ms st).file = st.file := by
  induction ms generalizing st with
  | nil => rfl
  | cons m rest ih => rw [runSteps, ih, batchStep_file_dry a tb ts m st hdry]

theorem batchTrace_dry_no_writes (a : Args) (tb : Bool) (s : Nat)
    (hdry : a.dry_run = true) :
    (batchTrace a tb s).all (fun v => !(evDriverWrite v)) = true := by
  by_cases htest : s % a.test_log_interval = 0 <;>
    by_cases hck : s > 0 ∧ s % a.checkpoint_interval = 0 <;>
      by_cases hf : (s + 1) % a.log_interval = 0 <;>
        simp [batchTrace, testTrace, flushTrace, htest, hck, hf, hdry, evDriverWrite]

theorem runTrace_dry_no_writes (a : Args) (tb : Bool) (s0 N : Nat)
    (hdry : a.dry_run = true) :
    (runTrace a tb s0 N).all (fun v => !(evDriverWrite v)) = true := by
  induction N generalizing s0 with
  | zero => rfl
  | succ k ih =>
    rw [runTrace, List.all_append]
    rw [batchTrace_dry_no_writes a tb s0 hdry, ih (s0 + 1)]
    rfl

theorem initTrainer_dry_no_writes (e : Experiment) (co tbv : Bool)
    (hdry : e.args.dry_run = true) :
    (initTrainer e co tbv).1.all (fun c => !(cevWrites c)) = true := by
  by_cases h1 : e.args.test_log_interval = 0
  · simp [initTrainer, h1]
  · by_cases h2 : e.args.checkpoint_interval % e.args.test_log_interval = 0
    · by_cases h3 : e.dataloaders.isNone <;>
        by_cases h4 : e.model.isNone <;>
          by_cases h5 : check_experiment e co <;>
            cases co <;>
              simp [initTrainer, h1, h2, h3, h4, h5, hdry, cevWrites]
    · simp [initTrainer, h1, h2]

/-! ## Step-superset order on persisted snapshots -/

/-- Snapshot `d1` is step-contained in snapshot `d2`: for every metric name,
every step `d1` holds for it also occurs in `d2` for it. -/
def SnapSub (d1 d2 : HistDict) : Prop :=
  ∀ n s, s ∈ stepsOfDict d1 n → s ∈ stepsOfDict d2 n

theorem snapSub_refl (d : HistDict) : SnapSub d d := fun _ _ hs => hs

theorem snapSub_trans (d1 d2 d3 : HistDict) (h12 : SnapSub d1 d2) (h23 : SnapSub d2 d3) :
    SnapSub d1 d3 := fun n s hs => h23 n s (h12 n s hs)

theorem mem_stepsOfDict_get_dict (h : History) (n : String) (s : Nat) :
    s ∈ stepsOfDict (get_dict h) n ↔
      ∃ r ∈ h, r.1 = s ∧ (r.2.find? (fun p => p.1 == n)).isSome = true := by
  constructor
  · intro hs
    rw [stepsOfDict] at hs
    obtain ⟨p, hpmem, hsp⟩ := List.mem_flatMap.mp hs
    obtain ⟨hpd, hpn⟩ := List.mem_filter.mp hpmem
    rw [get_dict] at hpd
    obtain ⟨n', hn', hpeq⟩ := List.mem_map.mp hpd
    have hn'n : n' = n := by
      rw [← hpeq] at hpn
      simpa using hpn
    subst hn'n
    rw [← hpeq] at hsp
    obtain ⟨e, hemem, hes⟩ := List.mem_map.mp hsp
    rw [entriesFor] at hemem
    obtain ⟨r, hrmem, hre⟩ := List.mem_filterMap.mp hemem
    rcases hq : r.2.find? (fun p => p.1 == n') with _ | p0
    · rw [hq] at hre
      simp at hre
    · rw [hq] at hre
      simp at hre
      refine ⟨r, hrmem, ?_, by rw [hq]; rfl⟩
      rw [← hre] at hes
      exact hes
  · rintro ⟨r, hrmem, hrs, hfind⟩
    obtain ⟨p0, hp0⟩ := Option.isSome_iff_exists.mp hfind
    have hp0mem : p0 ∈ r.2 := List.mem_of_find?_eq_some hp0
    have hp0n : p0.1 = n := by
      have hq := List.find?_some hp0
      simpa using hq
    have hnmem : n ∈ namesOf h := by
      rw [namesOf]
      apply List.mem_dedup.mpr
      apply List.mem_flatMap.mpr
      exact ⟨r, hrmem, List.mem_map.mpr ⟨p0, hp0mem, hp0n⟩⟩
    rw [stepsOfDict]
    apply List.mem_flatMap.mpr
    refine ⟨(n, entriesFor h n), ?_, ?_⟩
    · apply List.mem_filter.mpr
      constructor
      · rw [get_dict]
        exact List.mem_map.mpr ⟨n, hnmem, rfl⟩
      · simp
    · apply List.mem_map.mpr
      refine ⟨(r.1, p0.2), ?_, hrs⟩
      rw [entriesFor]
      apply List.mem_filterMap.mpr
      exact ⟨r, hrmem, by rw [hp0]; rfl⟩

/-- Appending records to a history only grows the steps its serialized form
holds: `get_dict` is monotone under history extension. -/
theorem get_dict_mono (h ext : History) :
    SnapSub (get_dict h) (get_dict (h ++ ext)) := by
  intro n s hs
  rw [mem_stepsOfDict_get_dict] at hs ⊢
  obtain ⟨r, hrmem, h1, h2⟩ := hs
  exact ⟨r, List.mem_append_left ext hrmem, h1, h2⟩

/-- The snapshots one dump site has written to the log file, in order
(`true` = the train-flush site, `false` = the `_test` site). -/
def siteSnaps (k : Bool) (file : List (Bool × HistDict)) : List HistDict :=
  (file.filter (fun p => p.1 == k)).map Prod.snd

/-- The invariant tying the persisted snapshots to the in-memory histories:
each site's snapshots form a `SnapSub` chain, and the last snapshot of each
site is contained in the serialization of the corresponding current
history. -/
def FileChainInv (st : RSt) : Prop :=
  List.Chain' SnapSub (siteSnaps true st.file)
  ∧ List.Chain' SnapSub (siteSnaps false st.file)
  ∧ (∀ d, (siteSnaps true st.file).getLast? = some d → SnapSub d (get_dict st.trainH))
  ∧ (∀ d, (siteSnaps false st.file).getLast? = some d → SnapSub d (get_dict st.testH))

/-- One site's invariant survives one batch: the old snapshot list is
extended by nothing or by the serialization of the new history, which itself
extends the old one. -/
theorem siteInv_step (l : List HistDict) (hist : History) (ext : History)
    (add : List HistDict)
    (hchain : List.Chain' SnapSub l)
    (hlast : ∀ d, l.getLast? = some d → SnapSub d (get_dict hist))
    (hadd : add = [] ∨ add = [get_dict (hist ++ ext)]) :
    List.Chain' SnapSub (l ++ add)
    ∧ (∀ d, (l ++ add).getLast? = some d → SnapSub d (get_dict (hist ++ ext))) := by
  have hmono := get_dict_mono hist ext
  rcases hadd with rfl | rfl
  · rw [List.append_nil]
    exact ⟨hchain, fun d hd => snapSub_trans _ _ _ (hlast d hd) hmono⟩
  · constructor
    · rw [List.chain'_append]
      refine ⟨hchain, List.chain'_singleton _, ?_⟩
      intro x hx y hy
      rw [List.head?_cons, Option.mem_def] at hy
      cases hy
      exact snapSub_trans _ _ _ (hlast x (Option.mem_def.mp hx)) hmono
    · intro d hd
      rw [List.getLast?_concat] at hd
      cases hd
      exact snapSub_refl _

theorem batchStep_testH (a : Args) (tb : Bool) (ts : Nat → Metrics) (m : Metrics)
    (st : RSt) :
    (batchStep a tb ts m st).testH =
      (if st.step % a.test_log_interval = 0 then histAdd st.testH (ts st.step) st.step
       else st.testH) := rfl

theorem batchStep_trainH (a : Args) (tb : Bool) (ts : Nat → Metrics) (m : Metrics)
    (st : RSt) :
    (batchStep a tb ts m st).trainH =
      (if (st.step + 1) % a.log_interval = 0
       then histAdd st.trainH (summGetAll 1000 (summAdd st.summ m)).1 st.step
       else st.trainH) := rfl

theorem batchStep_file (a : Args) (tb : Bool) (ts : Nat → Metrics) (m : Metrics)
    (st : RSt) :
    (batchStep a tb ts m st).file = st.file
      ++ (if st.step % a.test_log_interval = 0 ∧ a.dry_run = false
            then [(false, get_dict (batchStep a tb ts m st).testH)] else [])
      ++ (if (st.step + 1) % a.log_interval = 0 ∧ a.dry_run = false
            then [(true, get_dict (batchStep a tb ts m st).trainH)] else []) := rfl

theorem siteSnaps_append (k : Bool) (l1 l2 : List (Bool × HistDict)) :
    siteSnaps k (l1 ++ l2) = siteSnaps k l1 ++ siteSnaps k l2 := by
  simp [siteSnaps, List.filter_append]

theorem batchStep_fileInv (a : Args) (tb : Bool) (ts : Nat → Metrics) (m : Metrics)
    (st : RSt) (hinv : FileChainInv st) : FileChainInv (batchStep a tb ts m st) := by
  obtain ⟨hcT, hcF, hlT, hlF⟩ := hinv
  have hTex : ∃ ext, (batchStep a tb ts m st).trainH = st.trainH ++ ext := by
    rw [batchStep_trainH]
    by_cases hf : (st.step + 1) % a.log_interval = 0
    · exact ⟨[(st.step, (summGetAll 1000 (summAdd st.summ m)).1)], by rw [if_pos hf]; rfl⟩
    · exact ⟨[], by rw [if_neg hf, List.append_nil]⟩
  have hFex : ∃ ext, (batchStep a tb ts m st).testH = st.testH ++ ext := by
    rw [batchStep_testH]
    by_cases hf : st.step % a.test_log_interval = 0
    · exact ⟨[(st.step, ts st.step)], by rw [if_pos hf]; rfl⟩
    · exact ⟨[], by rw [if_neg hf, List.append_nil]⟩
  obtain ⟨extT, hextT⟩ := hTex
  obtain ⟨extF, hextF⟩ := hFex
  have hfile := batchStep_file a tb ts m st
  have hT : List.Chain' SnapSub (siteSnaps true (batchStep a tb ts m st).file)
      ∧ ∀ d, (siteSnaps true (batchStep a tb ts m st).file).getLast? = some d →
          SnapSub d (get_dict (batchStep a tb ts m st).trainH) := by
    rw [hfile, siteSnaps_append, siteSnaps_append]
    have hmid : siteSnaps true (if st.step % a.test_log_interval = 0 ∧ a.dry_run = false
        then [(false, get_dict (batchStep a tb ts m st).testH)] else []) = [] := by
      by_cases hc1 : st.step % a.test_log_interval = 0 ∧ a.dry_run = false <;>
        simp [siteSnaps, hc1]
    rw [hmid, List.append_nil, hextT]
    refine siteInv_step (siteSnaps true st.file) st.trainH extT _ hcT hlT ?_
    by_cases hc2 : (st.step + 1) % a.log_interval = 0 ∧ a.dry_run = false
    · right
      rw [if_pos hc2]
      simp [siteSnaps]
    · left
      rw [if_neg hc2]
      simp [siteSnaps]
  have hF : List.Chain' SnapSub (siteSnaps false (batchStep a tb ts m st).file)
      ∧ ∀ d, (siteSnaps false (batchStep a tb ts m st).file).getLast? = some d →
          SnapSub d (get_dict (batchStep a tb ts m st).testH) := by
    rw [hfile, siteSnaps_append, siteSnaps_append]
    have hmid : siteSnaps false (if (st.step + 1) % a.log_interval = 0 ∧ a.dry_run = false
        then [(true, get_dict (batchStep a tb ts m st).trainH)] else []) = [] := by
      by_cases hc2 : (st.step + 1) % a.log_interval = 0 ∧ a.dry_run = false <;>
        simp [siteSnaps, hc2]
    rw [hmid, List.append_nil, hextF]
    refine siteInv_step (siteSnaps false st.file) st.testH extF _ hcF hlF ?_
    by_cases hc1 : st.step % a.test_log_interval = 0 ∧ a.dry_run = false
    · right
      rw [if_pos hc1]
      simp [siteSnaps]
    · left
      rw [if_neg hc1]
      simp [siteSnaps]
  exact ⟨hT.1, hF.1, hT.2, hF.2⟩

theorem runSteps_fileInv (a : Args) (tb : Bool) (ts : Nat → Metrics) (ms : List Metrics)
    (st : RSt) (hinv : FileChainInv st) : FileChainInv (runSteps a tb ts ms st) := by
  induction ms generalizing st with
  | nil => exact hinv
  | cons m rest ih => exact ih (batchStep a tb ts m st) (batchStep_fileInv a tb ts m st hinv)

theorem initRSt_fileInv (s0 : Nat) : FileChainInv (initRSt s0) := by
  refine ⟨?_, ?_, ?_, ?_⟩
  · simp [initRSt, siteSnaps]
  · simp [initRSt, siteSnaps]
  · intro d hd
    simp [initRSt, siteSnaps] at hd
  · intro d hd
    simp [initRSt, siteSnaps] at hd

/-- The sequence of snapshots written to the log file by a concrete run:
test_log_interval 2, log_interval 1, two batches from step 0, a train metric
"loss", a test metric "test_loss". -/
def c1file : List (Bool × HistDict) :=
  match runBatches aFix false (mkHooks tsFix) [mFix, mFix] (initRSt 0) with
  | Except.ok st => st.file
  | Except.error _ => []

/-! ## Claims -/

/-- Claim C1 counterexample: in a concrete run, the first persisted snapshot
(written by the test flush at step 0) holds step 0 of metric "test_loss",
but the immediately following persisted snapshot (written by the train-log
flush, which dumps the other history to the same `log.pkl`) holds no step
for "test_loss": a persisted snapshot is not a step-superset of the
previously persisted one. -/
theorem claim_C1_counterexample :
    c1file.length = 3
    ∧ 0 ∈ stepsOfDict (c1file.getD 0 (true, [])).2 "test_loss"
    ∧ ¬ 0 ∈ stepsOfDict (c1file.getD 1 (true, [])).2 "test_loss" := by decide

/-- Claim C1 (amended): the superset-by-step property holds within each dump
site — each snapshot persisted by a train-log flush is a step-superset of the
previous train-log-flush snapshot, and likewise for test flushes — but not
across the two sites, which alternately overwrite the same `log.pkl` (see the
counterexample). -/
theorem claim_C1_per_site_chain (a : Args) (tb : Bool) (ts : Nat → Metrics)
    (ms : List Metrics)
    (ht : 0 < a.test_log_interval) (hL : 0 < a.log_interval)
    (hc : 0 < a.checkpoint_interval) :
    ∃ st', runBatches a tb (mkHooks ts) ms (initRSt 0) = Except.ok st'
      ∧ List.Chain' SnapSub (siteSnaps true st'.file)
      ∧ List.Chain' SnapSub (siteSnaps false st'.file) := by
  refine ⟨_, runBatches_ok a tb ts ms (initRSt 0) (by omega) (by omega) (by omega)
    (Or.inr (by simp [initRSt])), ?_, ?_⟩
  · exact (runSteps_fileInv a tb ts ms (initRSt 0) (initRSt_fileInv 0)).1
  · exact (runSteps_fileInv a tb ts ms (initRSt 0) (initRSt_fileInv 0)).2.1

theorem claim_C1_witness :
    ∃ st', runBatches aFix false (mkHooks tsFix) [mFix, mFix] (initRSt 0) = Except.ok st'
      ∧ List.Chain' SnapSub (siteSnaps true st'.file)
      ∧ List.Chain' SnapSub (siteSnaps false st'.file) :=
  claim_C1_per_site_chain aFix false tsFix [mFix, mFix]
    (by decide) (by decide) (by decide)

/-- Claim C7 counterexample: when `test_procedure` raises, `_test` propagates
the exception and the model is left in eval mode, not train mode, refuting
"train mode immediately after, regardless of whether the test procedure ...
succeeds or raises". -/
theorem claim_C7_counterexample :
    (testPass false false failingHooks (initRSt 0)).2 = some RunErr.testFailR
    ∧ (testPass false false failingHooks (initRSt 0)).1.mode = Mode.eval
    ∧ Mode.eval ≠ Mode.train := by decide

/-- Claim C7 (amended): every collaborator hook call inside `_test` happens
in eval mode; when no hook raises, the model is back in train mode when
`_test` returns, but when a hook raises the model remains in eval mode. -/
theorem claim_C7_eval_mode (dry tb : Bool) (hk : Hooks) (st : RSt) :
    ((testPass dry tb hk st).1.trace.drop st.trace.length).all evEvalTagged = true
    ∧ (testPass dry tb hk st).1.mode =
        (if (testPass dry tb hk st).2 = none then Mode.train else Mode.eval) := by
  rcases htp : hk.testProc st.step with e | summ <;>
    rcases hat : hk.addTest st.step with e2 | u <;>
      cases dry <;> cases tb <;>
        simp [testPass, htp, hat, evEvalTagged, List.append_assoc, List.drop_left]

/-- Claim C2 at its failing input: after `N = 2` batches with
`log_interval = 2` from `global_step = 0`, the train history holds exactly
`floor(2/2) = 1` record — the count part of the claim holds — but the
record's step key is `1` (the key is `step`, line 153), which is not a
multiple of `log_interval`; the printed step `step + 1` (lines 142-149)
would be. -/
theorem claim_C2_history_keys :
    c2result.toOption.isSome = true
    ∧ c2trainSteps = [1]
    ∧ c2trainSteps.length = 2 / 2
    ∧ ¬ (∀ s ∈ c2trainSteps, s % aFixC2.log_interval = 0) := by decide

/-- Claim C3 counterexample: a dry run that reaches step 1 with
`checkpoint_interval = 1` still invokes the model checkpoint hook — the call
that writes the model-defined checkpoint files (into a folder that was never
created) — refuting "no files written" for dry runs. -/
theorem claim_C3_counterexample :
    aFixDry.dry_run = true ∧ Ev.checkpointE 1 ∈ c3trace := by decide

/-- Claim C3 (amended): in a dry run, construction creates no directory and
writes no file, and the driver itself writes nothing during the run (no
`log.pkl` dump, no tensorboard write; the log file stays absent) — but the
model checkpoint hook is still invoked at eligible steps (see the
counterexample), so checkpoint files may still be written. -/
theorem claim_C3_dry_run (e : Experiment) (co tbv : Bool) (a : Args) (tb : Bool)
    (ts : Nat → Metrics) (ms : List Metrics)
    (hdrye : e.args.dry_run = true) (hdrya : a.dry_run = true)
    (ht : 0 < a.test_log_interval) (hL : 0 < a.log_interval)
    (hc : 0 < a.checkpoint_interval) :
    (initTrainer e co tbv).1.all (fun c => !(cevWrites c)) = true
    ∧ ∃ st', runBatches a tb (mkHooks ts) ms (initRSt 0) = Except.ok st'
        ∧ st'.file = []
        ∧ st'.trace.all (fun v => !(evDriverWrite v)) = true := by
  refine ⟨initTrainer_dry_no_writes e co tbv hdrye, _,
    runBatches_ok a tb ts ms (initRSt 0) (by omega) (by omega) (by omega)
      (Or.inr (by simp [initRSt])), ?_, ?_⟩
  · exact runSteps_file_dry a tb ts ms (initRSt 0) hdrya
  · rw [runSteps_trace]
    show ([] ++ runTrace a tb (initRSt 0).step ms.length).all _ = true
    rw [List.nil_append]
    exact runTrace_dry_no_writes a tb (initRSt 0).step ms.length hdrya

theorem claim_C3_witness :
    (initTrainer expDry true true).1.all (fun c => !(cevWrites c)) = true
    ∧ ∃ st', runBatches aFixDry false (mkHooks tsFix) [mFix, mFix] (initRSt 0) =
          Except.ok st'
        ∧ st'.file = []
        ∧ st'.trace.all (fun v => !(evDriverWrite v)) = true :=
  claim_C3_dry_run expDry true true aFixDry false tsFix [mFix, mFix]
    rfl rfl (by decide) (by decide) (by decide)

/-- Claim C6: during every run started at `global_step = 0` (with the
construction-time divisibility of `checkpoint_interval` by
`test_log_interval`), the model checkpoint hook is invoked at a step iff that
step is reached, is positive, and is an exact multiple of
`checkpoint_interval`. -/
theorem claim_C6_checkpoint_iff (a : Args) (tb : Bool) (ts : Nat → Metrics)
    (ms : List Metrics)
    (ht : 0 < a.test_log_interval) (hc : 0 < a.checkpoint_interval)
    (hL : 0 < a.log_interval)
    (hdvd : a.test_log_interval ∣ a.checkpoint_interval) :
    ∃ st', runBatches a tb (mkHooks ts) ms (initRSt 0) = Except.ok st' ∧
      ∀ s, Ev.checkpointE s ∈ st'.trace ↔
        s < ms.length ∧ s > 0 ∧ s % a.checkpoint_interval = 0 := by
  refine ⟨_, runBatches_ok a tb ts ms (initRSt 0) (by omega) (by omega) (by omega)
    (Or.inr (by simp [initRSt])), ?_⟩
  intro s
  rw [runSteps_trace]
  show Ev.checkpointE s ∈ [] ++ runTrace a tb (initRSt 0).step ms.length ↔ _
  rw [List.nil_append]
  show Ev.checkpointE s ∈ runTrace a tb 0 ms.length ↔ _
  rw [checkpointE_mem_runTrace]
  constructor
  · rintro ⟨-, h1, -, h3, h4⟩
    exact ⟨by omega, h3, h4⟩
  · rintro ⟨h1, h3, h4⟩
    have hcs : a.checkpoint_interval ∣ s := Nat.dvd_of_mod_eq_zero h4
    have hts : a.test_log_interval ∣ s := dvd_trans hdvd hcs
    obtain ⟨k, rfl⟩ := hts
    exact ⟨by omega, by omega, Nat.mul_mod_right _ _, h3, h4⟩

theorem claim_C6_witness :
    ∃ st', runBatches aFix false (mkHooks tsFix) [mFix, mFix, mFix] (initRSt 0) =
        Except.ok st' ∧
      ∀ s, Ev.checkpointE s ∈ st'.trace ↔
        s < [mFix, mFix, mFix].length ∧ s > 0 ∧ s % aFix.checkpoint_interval = 0 :=
  claim_C6_checkpoint_iff aFix false tsFix [mFix, mFix, mFix]
    (by decide) (by decide) (by decide) (by decide)

/-- Claim C8: each successful training iteration performs exactly the hook
sequence zero-gradients, forward pass, backward pass, metric accumulation,
optimizer step, global-step increment, in that order, and increments the
model's global step exactly once. -/
theorem claim_C8_hook_order (a : Args) (tb : Bool) (ts : Nat → Metrics) (m : Metrics)
    (st : RSt)
    (ht : a.test_log_interval ≠ 0) (hL : a.log_interval ≠ 0)
    (hc : a.checkpoint_interval ≠ 0)
    (hp : st.progress = some () ∨ st.step % a.test_log_interval = 0) :
    ∃ st', processBatch a tb (mkHooks ts) m st = Except.ok st'
      ∧ st'.trace = st.trace ++ batchTrace a tb st.step
      ∧ (batchTrace a tb st.step).filter isCoreHook =
          [Ev.zeroGradE st.step, Ev.forwardE st.step, Ev.backwardE st.step,
           Ev.accumE st.step, Ev.optStepE st.step, Ev.incStepE st.step]
      ∧ st'.step = st.step + 1 :=
  ⟨batchStep a tb ts m st, processBatch_ok a tb ts m st ht hL hc hp,
    batchStep_trace a tb ts m st, batchTrace_coreHooks a tb st.step,
    batchStep_step a tb ts m st⟩

theorem claim_C8_witness :
    ∃ st', processBatch aFix false (mkHooks tsFix) mFix (initRSt 0) = Except.ok st'
      ∧ st'.trace = (initRSt 0).trace ++ batchTrace aFix false (initRSt 0).step
      ∧ (batchTrace aFix false (initRSt 0).step).filter isCoreHook =
          [Ev.zeroGradE (initRSt 0).step, Ev.forwardE (initRSt 0).step,
           Ev.backwardE (initRSt 0).step, Ev.accumE (initRSt 0).step,
           Ev.optStepE (initRSt 0).step, Ev.incStepE (initRSt 0).step]
      ∧ st'.step = (initRSt 0).step + 1 :=
  claim_C8_hook_order aFix false tsFix mFix (initRSt 0)
    (by decide) (by decide) (by decide) (Or.inr (by decide))

/-- Claim C9: when the model's `global_step` at the first training batch is
not a multiple of `test_log_interval`, `run()` raises on the first batch
because `progress` is still `None` at `progress.update()`; when it is a
multiple, the first iteration succeeds. -/
theorem claim_C9_progress_crash (a : Args) (tb : Bool) (ts : Nat → Metrics)
    (metricsOf : Nat → Nat → Metrics) (me nB s0 : Nat)
    (ht : 0 < a.test_log_interval) (hme : 0 < me) (hnB : 0 < nB) :
    (¬ s0 % a.test_log_interval = 0 →
      runLoop a tb (mkHooks ts) metricsOf me nB s0 = Except.error RunErr.progressNoneR)
    ∧ (s0 % a.test_log_interval = 0 → 0 < a.log_interval → 0 < a.checkpoint_interval →
      ∃ st', processBatch a tb (mkHooks ts) (metricsOf 1 0) (initRSt s0) = Except.ok st') := by
  constructor
  · intro hs0
    obtain ⟨me', rfl⟩ : ∃ k, me = k + 1 := ⟨me - 1, by omega⟩
    obtain ⟨nB', rfl⟩ : ∃ k, nB = k + 1 := ⟨nB - 1, by omega⟩
    have hpb : processBatch a tb (mkHooks ts) (metricsOf 1 0) (initRSt s0)
        = Except.error RunErr.progressNoneR :=
      processBatch_progressNone a tb (mkHooks ts) (metricsOf 1 0) (initRSt s0)
        (by omega) hs0 rfl
    rw [runLoop, List.range_succ_eq_map, List.range_succ_eq_map]
    simp only [List.flatMap_cons, List.map_cons, Nat.zero_add, List.cons_append,
      runBatches, hpb]
  · intro hs0 hL hc
    exact ⟨batchStep a tb ts (metricsOf 1 0) (initRSt s0),
      processBatch_ok a tb ts (metricsOf 1 0) (initRSt s0)
        (by omega) (by omega) (by omega) (Or.inr hs0)⟩

theorem claim_C9_witness :
    (¬ 1 % aFix.test_log_interval = 0 →
      runLoop aFix false (mkHooks tsFix) (fun _ _ => mFix) 1 1 1 =
        Except.error RunErr.progressNoneR)
    ∧ (1 % aFix.test_log_interval = 0 → 0 < aFix.log_interval →
        0 < aFix.checkpoint_interval →
      ∃ st', processBatch aFix false (mkHooks tsFix) mFix (initRSt 1) = Except.ok st') :=
  claim_C9_progress_crash aFix false tsFix (fun _ _ => mFix) 1 1 1
    (by decide) (by decide) (by decide)

/-- Claim C5: when `checkpoint_interval` is not an exact integer multiple of
`test_log_interval`, construction raises, before performing any effect
(no directory, no config write, no setup hook). -/
theorem claim_C5_interval_assert (e : Experiment) (co tbv : Bool)
    (h : ¬ e.args.test_log_interval ∣ e.args.checkpoint_interval) :
    (initTrainer e co tbv).2.isSome = true ∧ (initTrainer e co tbv).1 = [] := by
  by_cases ht : e.args.test_log_interval = 0
  · simp [initTrainer, ht]
  · have hmod : ¬ e.args.checkpoint_interval % e.args.test_log_interval = 0 := fun hm =>
      h (Nat.dvd_of_mod_eq_zero hm)
    simp [initTrainer, ht, hmod]

theorem claim_C5_witness :
    (initTrainer expBadInterval false false).2.isSome = true
    ∧ (initTrainer expBadInterval false false).1 = [] :=
  claim_C5_interval_assert expBadInterval false false (by decide)

/-- Claim C4 counterexample: for a fully set-up experiment, the first action
of construction is the results-directory creation and the
collaborator-completeness check is the last, so the claimed order
(validation first, then directories, config, setup) is false on the code. -/
theorem claim_C4_counterexample :
    (initTrainer expOK true true).1 =
      [CEv.mkdirResultE, CEv.mkdirImgsE, CEv.mkdirCkptE, CEv.mkdirTbE, CEv.writeConfigE,
       CEv.setupDataE, CEv.setupModelE, CEv.setupOptE, CEv.checkExpE]
    ∧ (initTrainer expOK true true).1.head? = some CEv.mkdirResultE
    ∧ (initTrainer expOK true true).1.getLast? = some CEv.checkExpE
    ∧ CEv.mkdirResultE ≠ CEv.checkExpE := by decide

/-- Claim C4 (amended): construction first creates the run directories
(unless dry-run), then persists the configuration, then triggers
collaborator setup (dataset, then model, then optimizer), and performs the
collaborator-completeness validation last. -/
theorem claim_C4_construction_order (e : Experiment) (tbv : Bool)
    (hdry : e.args.dry_run = false)
    (ht : e.args.test_log_interval ≠ 0)
    (hdvd : e.args.checkpoint_interval % e.args.test_log_interval = 0)
    (hdl : e.dataloaders.isSome = true) (hm : e.model.isSome = true) :
    (initTrainer e true tbv).1 =
      [CEv.mkdirResultE, CEv.mkdirImgsE, CEv.mkdirCkptE]
        ++ (if tbv then [CEv.mkdirTbE] else []) ++ [CEv.writeConfigE]
        ++ [CEv.setupDataE, CEv.setupModelE, CEv.setupOptE, CEv.checkExpE] := by
  obtain ⟨u1, hu1⟩ := Option.isSome_iff_exists.mp hdl
  obtain ⟨u2, hu2⟩ := Option.isSome_iff_exists.mp hm
  by_cases hchk : check_experiment e true <;>
    simp [initTrainer, ht, hdvd, hdry, hu1, hu2, hchk, List.append_assoc]

theorem claim_C4_witness :
    (initTrainer expOK true true).1 =
      [CEv.mkdirResultE, CEv.mkdirImgsE, CEv.mkdirCkptE]
        ++ (if true then [CEv.mkdirTbE] else []) ++ [CEv.writeConfigE]
        ++ [CEv.setupDataE, CEv.setupModelE, CEv.setupOptE, CEv.checkExpE] :=
  claim_C4_construction_order expOK true rfl (by decide) (by decide) rfl rfl

/-- Claim C10: the collaborator-completeness check runs only after the run
directories are created, the configuration is persisted, and the setup hooks
have run; when it fails (here: the optimizer hook left `optimizer` as
`None`), construction raises, but the directory-creation and config-write
effects have already been performed (construction is not atomic). -/
theorem claim_C10_check_not_atomic (e : Experiment) (tbv : Bool)
    (hdry : e.args.dry_run = false)
    (ht : e.args.test_log_interval ≠ 0)
    (hdvd : e.args.checkpoint_interval % e.args.test_log_interval = 0)
    (hdl : e.dataloaders.isSome = true) (hm : e.model.isSome = true)
    (hopt : e.optimizer = none) :
    (initTrainer e true tbv).2 = some InitErr.assertCheckE
    ∧ (initTrainer e true tbv).1 =
        [CEv.mkdirResultE, CEv.mkdirImgsE, CEv.mkdirCkptE]
          ++ (if tbv then [CEv.mkdirTbE] else []) ++ [CEv.writeConfigE]
          ++ [CEv.setupDataE, CEv.setupModelE, CEv.setupOptE, CEv.checkExpE]
    ∧ CEv.mkdirResultE ∈ (initTrainer e true tbv).1
    ∧ CEv.writeConfigE ∈ (initTrainer e true tbv).1 := by
  obtain ⟨u1, hu1⟩ := Option.isSome_iff_exists.mp hdl
  obtain ⟨u2, hu2⟩ := Option.isSome_iff_exists.mp hm
  have hchk : check_experiment e true = false := by
    simp [check_experiment, hopt]
  refine ⟨?_, ?_, ?_, ?_⟩ <;>
    simp [initTrainer, ht, hdvd, hdry, hu1, hu2, hchk, List.append_assoc]

theorem claim_C10_witness :
    (initTrainer expNoOpt true true).2 = some InitErr.assertCheckE
    ∧ (initTrainer expNoOpt true true).1 =
        [CEv.mkdirResultE, CEv.mkdirImgsE, CEv.mkdirCkptE]
          ++ (if true then [CEv.mkdirTbE] else []) ++ [CEv.writeConfigE]
          ++ [CEv.setupDataE, CEv.setupModelE, CEv.setupOptE, CEv.checkExpE]
    ∧ CEv.mkdirResultE ∈ (initTrainer expNoOpt true true).1
    ∧ CEv.writeConfigE ∈ (initTrainer expNoOpt true true).1 :=
  claim_C10_check_not_atomic expNoOpt true rfl (by decide) (by decide) rfl rfl rfl

end Boilr
